import Mathlib

/-!
Shallow embedding of the mgi XAUUSDm trading agent (broker.py, filters.py,
risk.py, main.py) over exact rational arithmetic, together with theorems
settling the specification claims about it.  Python floats are modelled as
rationals; Python `int(x)` is truncation toward zero and Python `round` is
round-half-to-even, both modelled exactly below.
-/

set_option maxHeartbeats 1000000

/-! ### Python numeric primitives -/

/-- Python `int(q)`: truncation toward zero. -/
def pyTrunc (q : ℚ) : ℤ :=
  if q < 0 then ⌈q⌉ else ⌊q⌋

/-- Python `round(q)`: round half to even. -/
def pyRound (q : ℚ) : ℤ :=
  let f := ⌊q⌋
  let r := q - f
  if r < 1/2 then f
  else if 1/2 < r then f + 1
  else if f % 2 = 0 then f else f + 1

/-- Python `round(q, nd)`: round half to even at `nd` decimal places. -/
def pyRound2 (q : ℚ) (nd : ℕ) : ℚ :=
  (pyRound (q * 10 ^ nd) : ℚ) / 10 ^ nd

/-! ### broker.py utility helpers -/

/-- broker.py `_norm(price, digits)`: `int(price * factor + 0.5) / factor`
with `factor = 10 ** digits`. -/
def _norm (price : ℚ) (digits : ℕ) : ℚ :=
  (pyTrunc (price * 10 ^ digits + 1/2) : ℚ) / 10 ^ digits

/-- broker.py `_snap_to_step(volume, step)`: `round(volume / step)` steps,
then `round(steps * step, 8)`; volume passed through when `step <= 0`. -/
def _snap_to_step (volume step : ℚ) : ℚ :=
  if step ≤ 0 then volume
  else pyRound2 ((pyRound (volume / step) : ℚ) * step) 8

/-- broker.py `_round_volume` with the symbol's `volume_min`, `volume_max`,
`volume_step` resolved: clamp into `[v_min, v_max]`, snap to step, clamp again. -/
def _round_volume (v_min v_max v_step vol : ℚ) : ℚ :=
  let vol2 := max v_min (min v_max vol)
  let snapped := _snap_to_step vol2 v_step
  max v_min (min v_max snapped)

/-- Market snapshot used by `make_legal_sl_tp`: the fields read from
`mt5.symbol_info` and `mt5.symbol_info_tick` (`info.digits`, `info.point`,
`info.trade_stops_level`, `info.trade_freeze_level`, `tick.bid`, `tick.ask`). -/
structure Snapshot where
  digits : ℕ
  point : ℚ
  trade_stops_level : ℚ
  trade_freeze_level : ℚ
  bid : ℚ
  ask : ℚ
deriving DecidableEq

/-- The lower stop bound of broker.py `make_legal_sl_tp`:
`min(bid - stops - buffer, entry_price - buffer)` further lowered by
`bid - freeze - buffer` when `freeze` is nonzero (Python truthiness).
Used for the LONG stop-loss and the SHORT take-profit. -/
def lowBound (s : Snapshot) (entry_price : ℚ) : ℚ :=
  let stops := s.trade_stops_level * s.point
  let freeze := s.trade_freeze_level * s.point
  let buffer := s.point
  let m := min (s.bid - stops - buffer) (entry_price - buffer)
  if freeze ≠ 0 then min m (s.bid - freeze - buffer) else m

/-- The upper stop bound of broker.py `make_legal_sl_tp`:
`max(ask + stops + buffer, entry_price + buffer)` further raised by
`ask + freeze + buffer` when `freeze` is nonzero.
Used for the LONG take-profit and the SHORT stop-loss. -/
def highBound (s : Snapshot) (entry_price : ℚ) : ℚ :=
  let stops := s.trade_stops_level * s.point
  let freeze := s.trade_freeze_level * s.point
  let buffer := s.point
  let m := max (s.ask + stops + buffer) (entry_price + buffer)
  if freeze ≠ 0 then max m (s.ask + freeze + buffer) else m

/-- broker.py `make_legal_sl_tp(direction, entry_price, sl_price, tp_price)`
under a fixed market snapshot `s` (the code branch where `symbol_info` and
tick are available).  `None` stops pass through untouched; adjusted values
are normalized with `_norm` at the end. -/
def make_legal_sl_tp (direction : String) (entry_price : ℚ)
    (sl_price tp_price : Option ℚ) (s : Snapshot) : Option ℚ × Option ℚ :=
  let lo := lowBound s entry_price
  let hi := highBound s entry_price
  if direction = "LONG" then
    (sl_price.map (fun v => _norm (if v > lo then lo else v) s.digits),
     tp_price.map (fun v => _norm (if v < hi then hi else v) s.digits))
  else
    (sl_price.map (fun v => _norm (if v < hi then hi else v) s.digits),
     tp_price.map (fun v => _norm (if v > lo then lo else v) s.digits))

/-! ### broker.py order loops (retry structure) -/

/-- Venue response codes distinguished by broker.py's order loops. -/
inductive Retcode where
  | DONE
  | PLACED
  | REQUOTE
  | INVALID_STOPS
  | FROZEN
  | INVALID_FILL
  | OTHER
deriving DecidableEq

/-- broker.py `_send_deal`: one `mt5.order_send`, plus a single IOC fill-mode
fallback when the first response is `TRADE_RETCODE_INVALID_FILL`.  Returns
(number of `order_send` calls, effective retcode); `first`/`second` are the
venue's responses to the two possible sends. -/
def sendDealResult (first second : Retcode) : ℕ × Retcode :=
  if first = Retcode.INVALID_FILL then (2, second) else (1, first)

/-- broker.py `send_entry`'s `while attempt < 3` loop: every `continue` path
(REQUOTE, INVALID_STOPS, FROZEN) increments `attempt`; DONE/PLACED return and
every other code breaks.  `resp idx` is the venue's response pair to the
`idx`-th `_send_deal`; the value is the number of `order_send` calls made.
The recursion argument is the remaining attempt budget `3 - attempt`. -/
def sendEntryLoop (resp : ℕ → Retcode × Retcode) (idx : ℕ) : ℕ → ℕ
  | 0 => 0
  | remaining + 1 =>
    let r := sendDealResult (resp idx).1 (resp idx).2
    match r.2 with
    | Retcode.DONE => r.1
    | Retcode.PLACED => r.1
    | Retcode.REQUOTE => r.1 + sendEntryLoop resp (idx + 1) remaining
    | Retcode.INVALID_STOPS => r.1 + sendEntryLoop resp (idx + 1) remaining
    | Retcode.FROZEN => r.1 + sendEntryLoop resp (idx + 1) remaining
    | _ => r.1

/-- broker.py `close_all`'s `while True:` loop, step-indexed: `positionsAt k`
is what `mt5.positions_get` reports on the `k`-th sweep (after the sweep's
close attempts, whose failures leave positions in place).  `closeAllTerm p k
fuel` says the loop has returned within `fuel` further sweeps. -/
def closeAllTerm (positionsAt : ℕ → List ℕ) (k : ℕ) : ℕ → Bool
  | 0 => false
  | fuel + 1 =>
    if (positionsAt k).isEmpty then true
    else closeAllTerm positionsAt (k + 1) fuel

/-- The `close_all` loop never returns against the venue trace `positionsAt`,
no matter how many sweeps it is allowed. -/
def closeAllUnbounded (positionsAt : ℕ → List ℕ) : Prop :=
  ∀ fuel, closeAllTerm positionsAt 0 fuel = false

/-- A venue where one position (ticket 1) stays open because every
`close_position` attempt fails. -/
def stuckVenue : ℕ → List ℕ := fun _ => [1]

/-! ### risk.py -/

/-- risk.py `daily_stop(equity, daily_start_equity, max_dd_pct=5,
daily_target_pct=3)`. -/
def daily_stop (equity daily_start_equity max_dd_pct daily_target_pct : ℚ) :
    String :=
  let drawdown := 100 * (daily_start_equity - equity) / daily_start_equity
  let gain := 100 * (equity - daily_start_equity) / daily_start_equity
  if drawdown ≥ max_dd_pct then "STOP_DRAWDOWN"
  else if gain ≥ daily_target_pct then "STOP_TARGET"
  else "GO"

/-- risk.py `manage_open_trade(pnl_dollars, tp_target=0.40, sl_cut=0.20)`:
the dollar-threshold per-trade manager actually present in src/risk.py. -/
def manage_open_trade (pnl_dollars tp_target sl_cut : ℚ) : String :=
  if pnl_dollars ≥ tp_target then "TAKE_PROFIT"
  else if pnl_dollars ≥ 1/10 then "BREAKEVEN_SL"
  else if pnl_dollars ≤ -sl_cut then "HEDGE_NOW"
  else "HOLD"

/-- risk.py `lock_mode_controller(total_pnl, locked_loss_value,
breakout_confirmed)`: stateless post-lock recovery logic. -/
def lock_mode_controller (total_pnl locked_loss_value : ℚ)
    (breakout_confirmed : Bool) : String :=
  if total_pnl ≥ 0 then "CLOSE_ALL_AND_RESET"
  else if breakout_confirmed then "TAKE_RECOVERY_TRADE"
  else "WAIT"

/-- Modelled from the spec: the R-multiple per-position trade manager
`manage_open_trade(pnl_dollars, r_value, be_trigger_r, trail_after_r)` that
main.py's `manage_positions` calls (main.py lines 124-129) is missing from
src/risk.py, whose `manage_open_trade` is an older dollar-threshold variant
with an incompatible 3-parameter signature and no TRAIL/CUT_OR_HEDGE actions.
Spec 4.5: R = floatingPnlDollars / initialRiskDollars; R ≥ trailAfterR →
TRAIL; beTriggerR ≤ R < trailAfterR → BREAKEVEN (once); R ≤ −1.0 →
CUT_OR_HEDGE; otherwise HOLD. -/
def manage_open_trade_R (pnl_dollars r_value be_trigger_r trail_after_r : ℚ) :
    String :=
  let R := pnl_dollars / r_value
  if R ≥ trail_after_r then "TRAIL"
  else if R ≥ be_trigger_r then "BREAKEVEN_SL"
  else if R ≤ -1 then "CUT_OR_HEDGE"
  else "HOLD"

/-- main.py `manage_positions`' dispatch on the recommended action for one
position: a recommended BREAKEVEN_SL is issued only when `breakeven_done` is
still false, and then latches `breakeven_done`; TRAIL and CUT_OR_HEDGE are
issued as-is; HOLD issues nothing.  Returns (issued action, new flag). -/
def issueStep (breakeven_done : Bool) (action : String) :
    Option String × Bool :=
  if action = "BREAKEVEN_SL" then
    if breakeven_done then (none, breakeven_done)
    else (some "BREAKEVEN_SL", true)
  else if action = "TRAIL" then (some "TRAIL", breakeven_done)
  else if action = "CUT_OR_HEDGE" then (some "CUT_OR_HEDGE", breakeven_done)
  else (none, breakeven_done)

/-- Issued actions over successive ticks, threading the `breakeven_done`
flag of the position's registry entry through `issueStep`. -/
def issuedList (done : Bool) : List String → List (Option String)
  | [] => []
  | a :: rest =>
    let s := issueStep done a
    s.1 :: issuedList s.2 rest

/-! ### filters.py -/

/-- Candle as consumed by filters.py: only the `high`, `low`, `close`
fields are read by the indicator functions. -/
structure Candle where
  high : ℚ
  low : ℚ
  close : ℚ
deriving DecidableEq, Inhabited

/-- filters.py `compute_true_range(prev_close, high, low)`. -/
def compute_true_range (prev_close high low : ℚ) : ℚ :=
  max (high - low) (max |high - prev_close| |low - prev_close|)

/-- The `trs` list built by filters.py `compute_atr`'s loop
`for i in range(1, len(candles))` (also the `tr_list` of `compute_adx`,
whose inline formula is identical). -/
def trList : List Candle → List ℚ
  | [] => []
  | [_] => []
  | a :: b :: rest => compute_true_range a.close b.high b.low :: trList (b :: rest)

/-- Python `statistics.mean`: sum divided by length (exact on rationals). -/
def pymean (xs : List ℚ) : ℚ := xs.sum / xs.length

/-- filters.py `compute_atr(candles, period)`; `trs[-period:]` is the last
`period` true ranges (the embedding assumes `period ≥ 1`, the only regime
in which the Python slice equals dropping all but the last `period`). -/
def compute_atr (candles : List Candle) (period : ℕ) : Option ℚ :=
  if candles.length < period + 1 then none
  else
    let trs := trList candles
    if trs.length < period then none
    else some (pymean (trs.drop (trs.length - period)))

/-- Helper for `_ema_series`: folds `ema = value*k + ema*(1-k)` over the
remaining values, emitting each intermediate. -/
def emaAux (k ema : ℚ) : List ℚ → List ℚ
  | [] => []
  | v :: rest =>
    let e := v * k + ema * (1 - k)
    e :: emaAux k e rest

/-- filters.py `_ema_series(values, period)`: seeds with `values[0]` and then
iterates over the whole list (the first iteration re-processes `values[0]`,
which leaves it unchanged). -/
def _ema_series (values : List ℚ) (period : ℕ) : List ℚ :=
  match values with
  | [] => []
  | v0 :: _ => emaAux (2 / ((period : ℚ) + 1)) v0 values

/-- Python `max` over a list of rationals; `max([])` raises in Python and is
unreachable in the call sites below, where the list is nonempty. -/
def listMax : List ℚ → ℚ
  | [] => 0
  | h :: t => t.foldl max h

/-- Python `min` over a list of rationals; same remark as `listMax`. -/
def listMin : List ℚ → ℚ
  | [] => 0
  | h :: t => t.foldl min h

/-- filters.py `price_to_pips(diff_price, pip_value)` (the Python function
raises for `pip_value ≤ 0`; all call sites pass a positive pip value). -/
def price_to_pips (diff_price pip_value : ℚ) : ℚ := diff_price / pip_value

/-- filters.py `detect_range(candles, lookback_bars, max_width_pips,
pip_value)`. -/
def detect_range (candles : List Candle) (lookback_bars : ℕ)
    (max_width_pips pip_value : ℚ) : Bool × Option ℚ × Option ℚ :=
  if candles.length < lookback_bars then (false, none, none)
  else
    let window := candles.drop (candles.length - lookback_bars)
    let high := listMax (window.map (·.high))
    let low := listMin (window.map (·.low))
    let width_pips := price_to_pips (high - low) pip_value
    (decide (width_pips ≤ max_width_pips), some high, some low)

/-- filters.py `donchian_breakout(candles, lkb)`: channel over
`candles[-(lkb+1):-1]`, breakout of the latest close against it. -/
def donchian_breakout (candles : List Candle) (lkb : ℕ) :
    Option String × Option ℚ × Option ℚ × Option ℚ :=
  if candles.length < lkb + 1 then (none, none, none, none)
  else
    let channel := (candles.drop (candles.length - (lkb + 1))).take lkb
    let hi := listMax (channel.map (·.high))
    let lo := listMin (channel.map (·.low))
    let last_close := (candles.getLastD default).close
    let direction : Option String :=
      if last_close > hi then some "LONG"
      else if last_close < lo then some "SHORT"
      else none
    (direction, some hi, some lo, some last_close)

/-- The `plus_dm` list of filters.py `compute_adx`:
`up_move if (up_move > down_move and up_move > 0) else 0`. -/
def plusDM : List Candle → List ℚ
  | [] => []
  | [_] => []
  | a :: b :: rest =>
    (if b.high - a.high > a.low - b.low ∧ b.high - a.high > 0
     then b.high - a.high else 0) :: plusDM (b :: rest)

/-- The `minus_dm` list of filters.py `compute_adx`:
`down_move if (down_move > up_move and down_move > 0) else 0`. -/
def minusDM : List Candle → List ℚ
  | [] => []
  | [_] => []
  | a :: b :: rest =>
    (if a.low - b.low > b.high - a.high ∧ a.low - b.low > 0
     then a.low - b.low else 0) :: minusDM (b :: rest)

/-- Helper for `_rma`: Wilder's recurrence
`r = (r*(period-1) + value) / period`, emitting each smoothed value. -/
def rmaAux (period : ℕ) (r : ℚ) : List ℚ → List ℚ
  | [] => []
  | v :: rest =>
    let r2 := (r * ((period : ℚ) - 1) + v) / period
    r2 :: rmaAux period r2 rest

/-- filters.py `_rma(values, period)`: `None` on short input, else the seed
(mean of the first `period` raw values) followed by Wilder smoothing of the
rest. -/
def _rma (values : List ℚ) (period : ℕ) : Option (List ℚ) :=
  if values.length < period then none
  else
    let r0 := (values.take period).sum / period
    some (r0 :: rmaAux period r0 (values.drop period))

/-- Python truthiness of `compute_adx`'s smoothed lists: falsy when `_rma`
returned `None` or an empty list. -/
def isFalsy (o : Option (List ℚ)) : Bool :=
  match o with
  | none => true
  | some l => l.isEmpty

/-- One element of the `plus_di` / `minus_di` comprehensions of
`compute_adx`, over index range `List.range L`. -/
def diPart (tl pl : List ℚ) (L : ℕ) : List ℚ :=
  (List.range L).map
    (fun i => if tl.getD i 0 = 0 then 0 else 100 * pl.getD i 0 / tl.getD i 0)

/-- One element of the `dx` list of `compute_adx`. -/
def dxPart (p m : ℚ) : ℚ :=
  if p + m = 0 then 0 else 100 * |p - m| / (p + m)

/-- filters.py `compute_adx(candles, period)`. -/
def compute_adx (candles : List Candle) (period : ℕ) : Option ℚ :=
  if candles.length < period + 2 then none
  else
    let ts := _rma (trList candles) period
    let ps := _rma (plusDM candles) period
    let ms := _rma (minusDM candles) period
    if isFalsy ts || isFalsy ps || isFalsy ms then none
    else
      let tl := ts.getD []
      let pl := ps.getD []
      let ml := ms.getD []
      let L := min tl.length (min pl.length ml.length)
      let plus_di := diPart tl pl L
      let minus_di := diPart tl ml L
      let dx := List.zipWith dxPart plus_di minus_di
      (_rma dx period).bind List.getLast?

/-- filters.py `market_state(candles, atr_value, pip_value, adx_period,
ema_fast, ema_slow, donchian_lkb, range_lookback, range_max_width_pips)`.
Note that the `atr_value` parameter is never read by the body. -/
def market_state (candles : List Candle) (atr_value pip_value : ℚ)
    (adx_period ema_fast ema_slow donchian_lkb range_lookback : ℕ)
    (range_max_width_pips : ℚ) : String :=
  let min_history := max ema_slow (max (donchian_lkb + 1) range_lookback)
  if candles.length < min_history then "UNSURE"
  else
    let in_range :=
      (detect_range candles range_lookback range_max_width_pips pip_value).1
    if in_range then "RANGING"
    else
      let closes := candles.map (·.close)
      let efs := _ema_series closes ema_fast
      let ess := _ema_series closes ema_slow
      if efs.isEmpty || ess.isEmpty then "UNSURE"
      else
        let ema_fast_val := efs.getLastD 0
        let ema_slow_val := ess.getLastD 0
        let adx_ok :=
          match compute_adx candles adx_period with
          | none => false
          | some a => decide (a ≥ 25)
        let breakout_dir := (donchian_breakout candles donchian_lkb).1
        if decide (breakout_dir = some "LONG") &&
            decide (ema_fast_val > ema_slow_val) && adx_ok
        then "TREND_LONG"
        else if decide (breakout_dir = some "SHORT") &&
            decide (ema_fast_val < ema_slow_val) && adx_ok
        then "TREND_SHORT"
        else "UNSURE"

/-! ### Concrete inputs used by witnesses and counterexamples -/

/-- `x` is an integer multiple of `step`. -/
def isMultipleOf (x step : ℚ) : Prop := ∃ k : ℤ, x = (k : ℚ) * step

/-- A strictly rising degenerate candle staircase of five candles:
candle `i` has `high = low = close = i`. -/
def stair5 : List Candle :=
  [{ high := 0, low := 0, close := 0 },
   { high := 1, low := 1, close := 1 },
   { high := 2, low := 2, close := 2 },
   { high := 3, low := 3, close := 3 },
   { high := 4, low := 4, close := 4 }]

/-- Snapshot of the spec's section-8 stop-legalization scenario:
digits 2, point 0.01, stops level 50, freeze level 20, bid 2400.00,
ask 2400.30. -/
def specSnapshot : Snapshot :=
  { digits := 2, point := 1/100, trade_stops_level := 50,
    trade_freeze_level := 20, bid := 2400, ask := 24003/10 }

/-- Snapshot for the idempotence counterexample: digits 0, point 1,
no stops/freeze distance, bid = ask = 10. -/
def cexSnapshot : Snapshot :=
  { digits := 0, point := 1, trade_stops_level := 0,
    trade_freeze_level := 0, bid := 10, ask := 10 }

/-! ### Helper lemmas about `_norm` -/

/-- On nonnegative input the Python truncation inside `_norm` is a floor. -/
lemma norm_of_nonneg (x : ℚ) (d : ℕ) (hx : 0 ≤ x) :
    _norm x d = (⌊x * 10 ^ d + 1/2⌋ : ℚ) / 10 ^ d := by
  have hf : (0:ℚ) < 10 ^ d := by positivity
  unfold _norm pyTrunc
  rw [if_neg (not_lt.mpr (by positivity))]

/-- `_norm` fixes ratios `n / 10^d` with nonnegative integer numerator. -/
lemma norm_int_div (n : ℤ) (d : ℕ) (hn : 0 ≤ n) :
    _norm ((n : ℚ) / 10 ^ d) d = (n : ℚ) / 10 ^ d := by
  have hf : (0:ℚ) < 10 ^ d := by positivity
  have hn' : (0:ℚ) ≤ (n:ℚ) := by exact_mod_cast hn
  rw [norm_of_nonneg _ _ (div_nonneg hn' hf.le), div_mul_cancel₀ _ (ne_of_gt hf)]
  have h2 : ⌊((n:ℚ) + 1/2)⌋ = n + ⌊(1/2 : ℚ)⌋ := Int.floor_int_add n (1/2)
  have h3 : ⌊(1/2 : ℚ)⌋ = 0 := by
    rw [Int.floor_eq_iff] <;> norm_num
  rw [h2, h3, add_zero]

/-- Normalizing a nonnegative value yields a nonnegative value. -/
lemma norm_nonneg_of (x : ℚ) (d : ℕ) (hx : 0 ≤ x) : 0 ≤ _norm x d := by
  have hf : (0:ℚ) < 10 ^ d := by positivity
  rw [norm_of_nonneg x d hx]
  apply div_nonneg _ hf.le
  have : (0:ℤ) ≤ ⌊x * 10 ^ d + 1/2⌋ := by
    apply Int.le_floor.mpr
    push_cast
    nlinarith [mul_nonneg hx hf.le]
  exact_mod_cast this

/-- Stability of the lower-bound clamp followed by `_norm`: re-running the
clamp-and-normalize step of `make_legal_sl_tp` on its own output is the
identity, for nonnegative proposed value `v` and bound `m`. -/
lemma clampLow_stable (v m : ℚ) (d : ℕ) (hv : 0 ≤ v) (hm : 0 ≤ m) :
    _norm (if _norm (if v > m then m else v) d > m then m
           else _norm (if v > m then m else v) d) d
      = _norm (if v > m then m else v) d := by
  have hf : (0:ℚ) < 10 ^ d := by positivity
  set y := if v > m then m else v with hy
  have hy0 : 0 ≤ y := by
    by_cases h : v > m <;> simp only [hy, h, if_true, if_false] <;> assumption
  have hym : y ≤ m := by
    by_cases h : v > m
    · simp [hy, h]
    · simp only [hy, h, if_false]; exact le_of_not_lt h
  set n := ⌊y * 10 ^ d + 1/2⌋ with hn
  have hw : _norm y d = (n:ℚ)/10^d := norm_of_nonneg y d hy0
  have hn0 : 0 ≤ n := by
    apply Int.le_floor.mpr
    push_cast
    nlinarith [mul_nonneg hy0 hf.le]
  by_cases hgt : _norm y d > m
  · rw [if_pos hgt, hw] at *
    rw [norm_of_nonneg m d hm]
    have hmf : m * 10 ^ d < (n:ℚ) := by
      rw [gt_iff_lt, lt_div_iff hf] at hgt; exact hgt
    have hub : ⌊m * 10 ^ d + 1/2⌋ ≤ n := by
      have h1 : m * 10 ^ d + 1/2 < (n:ℚ) + 1 := by linarith
      exact Int.lt_add_one_iff.mp (Int.floor_lt.mpr (by push_cast; linarith))
    have hlb : n ≤ ⌊m * 10 ^ d + 1/2⌋ := by
      apply Int.le_floor.mpr
      have hyle : y * 10 ^ d ≤ m * 10 ^ d :=
        mul_le_mul_of_nonneg_right hym hf.le
      have := Int.floor_le (y * 10 ^ d + 1/2)
      push_cast
      push_cast at this
      linarith
    rw [le_antisymm hub hlb]
  · rw [if_neg hgt, hw]
    exact norm_int_div n d hn0

/-- Stability of the upper-bound clamp followed by `_norm`, mirror of
`clampLow_stable`. -/
lemma clampHigh_stable (v M : ℚ) (d : ℕ) (hv : 0 ≤ v) (hM : 0 ≤ M) :
    _norm (if _norm (if v < M then M else v) d < M then M
           else _norm (if v < M then M else v) d) d
      = _norm (if v < M then M else v) d := by
  have hf : (0:ℚ) < 10 ^ d := by positivity
  set y := if v < M then M else v with hy
  have hy0 : 0 ≤ y := by
    by_cases h : v < M <;> simp only [hy, h, if_true, if_false] <;> assumption
  have hyM : M ≤ y := by
    by_cases h : v < M
    · simp [hy, h]
    · simp only [hy, h, if_false]; exact le_of_not_lt h
  set n := ⌊y * 10 ^ d + 1/2⌋ with hn
  have hw : _norm y d = (n:ℚ)/10^d := norm_of_nonneg y d hy0
  have hn0 : 0 ≤ n := by
    apply Int.le_floor.mpr
    push_cast
    nlinarith [mul_nonneg hy0 hf.le]
  by_cases hlt : _norm y d < M
  · rw [if_pos hlt, hw] at *
    rw [norm_of_nonneg M d hM]
    have hMf : (n:ℚ) < M * 10 ^ d := by
      rw [div_lt_iff hf] at hlt; exact hlt
    have hub : ⌊M * 10 ^ d + 1/2⌋ ≤ n := by
      have hyle : M * 10 ^ d ≤ y * 10 ^ d :=
        mul_le_mul_of_nonneg_right hyM hf.le
      have h1 : M * 10 ^ d + 1/2 < (n:ℚ) + 1 := by
        have := Int.lt_floor_add_one (y * 10 ^ d + 1/2)
        push_cast at this
        linarith
      exact Int.lt_add_one_iff.mp (Int.floor_lt.mpr (by push_cast; linarith))
    have hlb : n ≤ ⌊M * 10 ^ d + 1/2⌋ := by
      apply Int.le_floor.mpr
      push_cast
      linarith
    rw [le_antisymm hub hlb]
  · rw [if_neg hlt, hw]
    exact norm_int_div n d hn0

/-! ### Claim C1 -/

/-- Claim C1 (amended): `make_legal_sl_tp` is idempotent under a fixed
market snapshot provided the proposed SL/TP values and the computed legal
bounds are nonnegative.  (As originally stated, over every price, the claim
fails: with negative prices the `int()`-based round-half-up normalization
truncates toward zero instead of flooring and repeated application drifts;
see the counterexample.) -/
theorem C1_legalize_idempotent (direction : String) (entry_price : ℚ)
    (sl_price tp_price : Option ℚ) (s : Snapshot)
    (hsl : ∀ v, sl_price = some v → 0 ≤ v)
    (htp : ∀ v, tp_price = some v → 0 ≤ v)
    (hlo : 0 ≤ lowBound s entry_price)
    (hhi : 0 ≤ highBound s entry_price) :
    make_legal_sl_tp direction entry_price
        (make_legal_sl_tp direction entry_price sl_price tp_price s).1
        (make_legal_sl_tp direction entry_price sl_price tp_price s).2 s
      = make_legal_sl_tp direction entry_price sl_price tp_price s := by
  unfold make_legal_sl_tp
  by_cases hdir : direction = "LONG"
  · simp only [hdir, if_true, reduceIte]
    rcases sl_price with _ | v <;> rcases tp_price with _ | w <;>
      simp only [Option.map_none, Option.map_some, Prod.mk.injEq, Option.some.injEq] <;>
      refine ⟨?_, ?_⟩ <;>
      first
        | rfl
        | exact congrArg some
            (clampLow_stable v (lowBound s entry_price) s.digits (hsl v rfl) hlo)
        | exact congrArg some
            (clampHigh_stable w (highBound s entry_price) s.digits (htp w rfl) hhi)
  · simp only [hdir, if_false, reduceIte]
    rcases sl_price with _ | v <;> rcases tp_price with _ | w <;>
      simp only [Option.map_none, Option.map_some, Prod.mk.injEq, Option.some.injEq] <;>
      refine ⟨?_, ?_⟩ <;>
      first
        | rfl
        | exact congrArg some
            (clampHigh_stable v (highBound s entry_price) s.digits (hsl v rfl) hhi)
        | exact congrArg some
            (clampLow_stable w (lowBound s entry_price) s.digits (htp w rfl) hlo)

/-- Witness for C1: the spec's section-8 scenario (LONG, bid 2400.00,
ask 2400.30, stops 50, freeze 20, point 0.01, proposed SL 2399.95,
TP 2402) satisfies the hypotheses, and re-legalizing the legalized pair
returns it unchanged. -/
theorem C1_witness :
    0 ≤ lowBound specSnapshot (24003/10) ∧
    0 ≤ highBound specSnapshot (24003/10) ∧
    make_legal_sl_tp "LONG" (24003/10)
        (make_legal_sl_tp "LONG" (24003/10) (some (239995/100)) (some 2402)
          specSnapshot).1
        (make_legal_sl_tp "LONG" (24003/10) (some (239995/100)) (some 2402)
          specSnapshot).2 specSnapshot
      = make_legal_sl_tp "LONG" (24003/10) (some (239995/100)) (some 2402)
          specSnapshot :=
  ⟨by norm_num [lowBound, specSnapshot], by norm_num [highBound, specSnapshot],
   C1_legalize_idempotent "LONG" (24003/10) (some (239995/100)) (some 2402)
     specSnapshot (fun v h => by cases h; norm_num)
     (fun v h => by cases h; norm_num)
     (by norm_num [lowBound, specSnapshot])
     (by norm_num [highBound, specSnapshot])⟩

/-- Counterexample to C1 as stated: with digits 0, point 1, bid = ask = 10
and the (negative) proposed stop −2.6, one legalization yields SL −2 but a
second yields −1, so `legalize (legalize x) ≠ legalize x`. -/
theorem C1_counterexample :
    make_legal_sl_tp "LONG" 10
        (make_legal_sl_tp "LONG" 10 (some (-13/5)) none cexSnapshot).1
        (make_legal_sl_tp "LONG" 10 (some (-13/5)) none cexSnapshot).2
        cexSnapshot
      ≠ make_legal_sl_tp "LONG" 10 (some (-13/5)) none cexSnapshot := by
  have hc1 : ⌈(-(21/10) : ℚ)⌉ = -2 := by
    rw [Int.ceil_eq_iff] <;> norm_num
  have hc2 : ⌈(-(3/2) : ℚ)⌉ = -1 := by
    rw [Int.ceil_eq_iff] <;> norm_num
  have h1 : make_legal_sl_tp "LONG" 10 (some (-13/5)) none cexSnapshot
      = (some (-2), none) := by
    norm_num [make_legal_sl_tp, lowBound, highBound, cexSnapshot, _norm,
      pyTrunc, hc1]
  have h2 : make_legal_sl_tp "LONG" 10 (some (-2)) none cexSnapshot
      = (some (-1), none) := by
    norm_num [make_legal_sl_tp, lowBound, highBound, cexSnapshot, _norm,
      pyTrunc, hc2]
  rw [h1]
  show make_legal_sl_tp "LONG" 10 (some (-2)) none cexSnapshot ≠ (some (-2), none)
  rw [h2]
  simp only [ne_eq, Prod.mk.injEq, Option.some.injEq]
  intro h
  norm_num at h

/-! ### Claim C9 -/

/-- Claim C9 (amended): for every nonnegative price `x` and digit count `d`,
broker.py's `_norm` — the normalization applied to every output price of
`make_legal_sl_tp` — equals `floor(x·10^d + 0.5) / 10^d`.  (As originally
stated, over every price, the claim fails for negative prices because
Python `int()` truncates toward zero; see the counterexample.) -/
theorem C9_norm_is_floor_half_up (x : ℚ) (d : ℕ) (hx : 0 ≤ x) :
    _norm x d = (⌊x * 10 ^ d + 1/2⌋ : ℚ) / 10 ^ d :=
  norm_of_nonneg x d hx

/-- Witness for C9 at `x = 1/3`, `d = 2`: `_norm` rounds to `33/100`. -/
theorem C9_witness :
    0 ≤ (1/3 : ℚ) ∧
    _norm (1/3) 2 = (⌊(1/3 : ℚ) * 10 ^ 2 + 1/2⌋ : ℚ) / 10 ^ 2 :=
  ⟨by norm_num, C9_norm_is_floor_half_up (1/3) 2 (by norm_num)⟩

/-- Counterexample to C9 as stated: at price −1 with 0 digits, `_norm`
returns 0 (truncation toward zero of −0.5) whereas the claimed
`floor(x·10^d + 0.5)/10^d` is −1. -/
theorem C9_counterexample :
    _norm (-1) 0 = 0 ∧
    (⌊(-1 : ℚ) * 10 ^ (0:ℕ) + 1/2⌋ : ℚ) / 10 ^ (0:ℕ) = -1 := by
  constructor
  · norm_num [_norm, pyTrunc, Int.ceil_eq_iff]
  · norm_num

/-! ### Claim C2 -/

/-- The `send_entry` retry loop makes at most `2 * r` venue `order_send`
calls when `r` attempts remain, for every venue response stream. -/
lemma sendEntryLoop_le (resp : ℕ → Retcode × Retcode) :
    ∀ r idx, sendEntryLoop resp idx r ≤ 2 * r := by
  intro r
  induction r with
  | zero => intro idx; simp [sendEntryLoop]
  | succ n ih =>
    intro idx
    have hr1 : (sendDealResult (resp idx).1 (resp idx).2).1 ≤ 2 := by
      unfold sendDealResult; split <;> simp
    have h2 := ih (idx + 1)
    simp only [sendEntryLoop]
    split <;> omega

/-- Against `stuckVenue` the `close_all` loop never terminates, whatever
the sweep index and fuel. -/
lemma closeAllTerm_stuck : ∀ (fuel k : ℕ),
    closeAllTerm stuckVenue k fuel = false := by
  intro fuel
  induction fuel with
  | zero => intro k; rfl
  | succ n ih => intro k; simp [closeAllTerm, stuckVenue, ih]

/-- Claim C2 (amended, bounded part): the entry action is bounded — the
`while attempt < 3` loop of `send_entry` makes at most 6 `order_send` calls
(3 attempts, each with at most one fill-mode fallback) for every venue
response stream, and `_send_deal` itself makes at most 2 calls (this also
bounds `close_position`, whose single `_send_deal` is its only send).
The close-all action, by contrast, is **not** bounded: see the
counterexample. -/
theorem C2_entry_retry_bounded :
    (∀ (resp : ℕ → Retcode × Retcode) (idx : ℕ),
      sendEntryLoop resp idx 3 ≤ 6) ∧
    (∀ f s : Retcode, (sendDealResult f s).1 ≤ 2) :=
  ⟨fun resp idx => by have := sendEntryLoop_le resp 3 idx; omega,
   fun f s => by unfold sendDealResult; split <;> simp⟩

/-- Counterexample to C2 as stated: against a venue where one position never
closes (every `close_position` fails), `close_all`'s `while True:` loop never
resolves — its number of venue calls is unbounded. -/
theorem C2_counterexample : closeAllUnbounded stuckVenue :=
  fun fuel => closeAllTerm_stuck fuel 0

/-! ### Claim C3 -/

/-- Claim C3: on the R-multiple tick sequence 0.0, 0.6, 1.2, −1.1 (risk
basis 10 dollars, `beTriggerR = 0.5`, `trailAfterR = 1.0`) the per-position
manager recommends exactly HOLD, BREAKEVEN_SL, TRAIL, CUT_OR_HEDGE; and
main.py's `breakeven_done` latch issues a recommended BREAKEVEN_SL only the
first time. -/
theorem C3_scenario_sequence :
    ([(0:ℚ), 6, 12, -11].map
        (fun p => manage_open_trade_R p 10 (1/2) 1)
      = ["HOLD", "BREAKEVEN_SL", "TRAIL", "CUT_OR_HEDGE"]) ∧
    issuedList false ["BREAKEVEN_SL", "BREAKEVEN_SL"]
      = [some "BREAKEVEN_SL", none] := by
  constructor
  · norm_num [manage_open_trade_R]
  · norm_num [issuedList, issueStep]

/-! ### Claim C4 -/

/-- Claim C4 (code evaluated at the claim's inputs): with baseline 1000,
drawdown limit 6 and gain limit 4, src/risk.py's `daily_stop` returns
"STOP_TARGET" at equity 1041 (the claim expects "STOP_GAIN"),
"STOP_DRAWDOWN" at 938 (the claim expects "STOP_LOSS"), and "GO" at 1010;
it has no BASELINE_UNKNOWN branch at all (a missing baseline raises a
TypeError in Python), and its keyword parameters are `max_dd_pct` /
`daily_target_pct`, so main.py's call with `gain_limit_pct=` /
`drawdown_limit_pct=` raises a TypeError. -/
theorem C4_daily_stop_eval :
    daily_stop 1041 1000 6 4 = "STOP_TARGET" ∧
    daily_stop 938 1000 6 4 = "STOP_DRAWDOWN" ∧
    daily_stop 1010 1000 6 4 = "GO" ∧
    daily_stop 1041 1000 6 4 ≠ "STOP_GAIN" := by
  refine ⟨?_, ?_, ?_, ?_⟩ <;> norm_num [daily_stop] <;> decide

/-! ### Claim C5 -/

/-- Claim C5 (amended): `lock_mode_controller` is stateless and has no
per-episode latch — while the basket PnL is negative it returns
TAKE_RECOVERY_TRADE on **every** evaluation with `breakout_confirmed` true
(even after a recovery trade has already been taken), and returns WAIT only
when the breakout is not confirmed. -/
theorem C5_lock_controller_stateless (pnl llv : ℚ) (h : pnl < 0) :
    lock_mode_controller pnl llv true = "TAKE_RECOVERY_TRADE" ∧
    lock_mode_controller pnl llv false = "WAIT" := by
  have h' : ¬ (pnl ≥ 0) := not_le.mpr h
  constructor <;> simp [lock_mode_controller, h']

/-- Witness for C5 at PnL −5. -/
theorem C5_witness :
    (-5 : ℚ) < 0 ∧
    (lock_mode_controller (-5) 0 true = "TAKE_RECOVERY_TRADE" ∧
     lock_mode_controller (-5) 0 false = "WAIT") :=
  ⟨by norm_num, C5_lock_controller_stateless (-5) 0 (by norm_num)⟩

/-- Counterexample to C5 as stated: with the basket still negative and the
breakout condition still true, a subsequent evaluation (the controller
carries no recovery-taken state, so it is this same call) again returns
TAKE_RECOVERY_TRADE rather than WAIT. -/
theorem C5_counterexample :
    lock_mode_controller (-5) 0 true = "TAKE_RECOVERY_TRADE" ∧
    lock_mode_controller (-5) 0 true ≠ "WAIT" := by
  constructor <;> norm_num [lock_mode_controller] <;> decide

/-! ### Claim C7 -/

/-- `pyRound` is the identity on integers. -/
lemma pyRound_intCast (n : ℤ) : pyRound (n : ℚ) = n := by
  unfold pyRound
  rw [Int.floor_intCast]
  norm_num

/-- `round(x, 8)` is the identity on multiples of integers by a step that is
itself an integer multiple of `10⁻⁸`. -/
lemma pyRound2_mult (k m : ℤ) (step : ℚ) (hs : step = (m : ℚ) / 10 ^ 8) :
    pyRound2 ((k : ℚ) * step) 8 = (k : ℚ) * step := by
  subst hs
  unfold pyRound2
  have h10 : ((10:ℚ) ^ 8) ≠ 0 := by norm_num
  have harg : ((k : ℚ) * ((m : ℚ) / 10 ^ 8)) * 10 ^ 8 = ((k * m : ℤ) : ℚ) := by
    push_cast
    field_simp
  rw [harg, pyRound_intCast]
  push_cast
  field_simp

/-- Claim C7 (amended): for positive step with `volumeMin ≤ volumeMax`, the
output of `_round_volume` always lies within `[volumeMin, volumeMax]`; and
when `volumeMin` and `volumeMax` are themselves integer multiples of
`volumeStep` (and the step is an exact multiple of 10⁻⁸ so that Python's
`round(·, 8)` is exact on step multiples), the output is an integer multiple
of `volumeStep`.  (As originally stated the claim fails: the final clamp can
land on a `volumeMin` that is not a step multiple, and the snap uses
Python's round-half-to-even, not round-half-up; see the counterexample.) -/
theorem C7_round_volume_legal (v_min v_max v_step vol : ℚ)
    (h1 : 0 < v_step) (h2 : v_min ≤ v_max) :
    (v_min ≤ _round_volume v_min v_max v_step vol ∧
     _round_volume v_min v_max v_step vol ≤ v_max) ∧
    (isMultipleOf v_min v_step → isMultipleOf v_max v_step →
      (∃ m : ℤ, v_step = (m : ℚ) / 10 ^ 8) →
      isMultipleOf (_round_volume v_min v_max v_step vol) v_step) := by
  constructor
  · unfold _round_volume
    exact ⟨le_max_left _ _, max_le h2 (min_le_left _ _)⟩
  · intro h3 h4 h5
    obtain ⟨m, hm⟩ := h5
    unfold _round_volume
    have hsnap : isMultipleOf
        (_snap_to_step (max v_min (min v_max vol)) v_step) v_step := by
      unfold _snap_to_step
      rw [if_neg (not_le.mpr h1)]
      exact ⟨pyRound (max v_min (min v_max vol) / v_step),
        pyRound2_mult _ m v_step hm⟩
    rcases max_cases v_min
        (min v_max (_snap_to_step (max v_min (min v_max vol)) v_step)) with
      ⟨hout, _⟩ | ⟨hout, _⟩
    · rw [hout]; exact h3
    · rw [hout]
      rcases min_cases v_max
          (_snap_to_step (max v_min (min v_max vol)) v_step) with
        ⟨hout2, _⟩ | ⟨hout2, _⟩
      · rw [hout2]; exact h4
      · rw [hout2]; exact hsnap

/-- Witness for C7: `volumeMin = 0.01`, `volumeMax = 10`, `volumeStep =
0.01`, raw lot `1/3`; both the unconditional in-bounds conclusion and the
step-multiple conclusion (whose extra hypotheses hold here) apply. -/
theorem C7_witness :
    (0 : ℚ) < 1/100 ∧ (1/100 : ℚ) ≤ 10 ∧
    ((1/100 : ℚ) ≤ _round_volume (1/100) 10 (1/100) (1/3) ∧
     _round_volume (1/100) 10 (1/100) (1/3) ≤ 10) ∧
    isMultipleOf (_round_volume (1/100) 10 (1/100) (1/3)) (1/100) :=
  ⟨by norm_num, by norm_num,
   (C7_round_volume_legal (1/100) 10 (1/100) (1/3)
     (by norm_num) (by norm_num)).1,
   (C7_round_volume_legal (1/100) 10 (1/100) (1/3)
     (by norm_num) (by norm_num)).2
     ⟨1, by norm_num⟩ ⟨1000, by norm_num⟩ ⟨1000000, by norm_num⟩⟩

/-- Counterexample to C7 as stated: with the positive inputs `volumeMin =
0.05`, `volumeMax = 1`, `volumeStep = 0.02`, raw lot `0.01`, the output is
`0.05`, which is not a multiple of `0.02` (and on the way, `round(2.5)`
rounds half to even, giving 2 rather than the claimed round-half-up 3). -/
theorem C7_counterexample :
    _round_volume (1/20) 1 (1/50) (1/100) = 1/20 ∧
    ¬ isMultipleOf (1/20) (1/50) := by
  constructor
  · have hr : pyRound (5/2 : ℚ) = 2 := by
      have hf : ⌊(5/2 : ℚ)⌋ = 2 := by norm_num
      unfold pyRound
      rw [hf]
      norm_num
    have hvol2 : max (1/20 : ℚ) (min 1 (1/100)) = 1/20 := by
      rw [min_def, max_def]
      norm_num
    have hsnap : _snap_to_step (1/20 : ℚ) (1/50) = 1/25 := by
      unfold _snap_to_step
      rw [if_neg (by norm_num)]
      rw [show ((1:ℚ)/20 / (1/50)) = 5/2 by norm_num, hr]
      unfold pyRound2
      rw [show ((2:ℤ) : ℚ) * (1/50) * 10 ^ (8:ℕ) = ((4000000 : ℤ) : ℚ) by
        push_cast; norm_num]
      rw [pyRound_intCast]
      norm_num
    show max (1/20 : ℚ)
        (min 1 (_snap_to_step (max (1/20) (min 1 (1/100))) (1/50))) = 1/20
    rw [hvol2, hsnap, min_def, max_def]
    norm_num
  · rintro ⟨k, hk⟩
    have h2 : (k : ℚ) * 2 = 5 := by
      field_simp at hk
      linarith
    have h3 : (k * 2 : ℤ) = 5 := by exact_mod_cast h2
    omega

/-! ### Length lemmas for the indicator pipelines -/

/-- `trList` has one entry per adjacent candle pair. -/
lemma trList_length (c : List Candle) : (trList c).length = c.length - 1 := by
  induction c with
  | nil => rfl
  | cons a t ih =>
    cases t with
    | nil => rfl
    | cons b r =>
      simp only [trList, List.length_cons] at *
      omega

/-- `plusDM` has one entry per adjacent candle pair. -/
lemma plusDM_length (c : List Candle) : (plusDM c).length = c.length - 1 := by
  induction c with
  | nil => rfl
  | cons a t ih =>
    cases t with
    | nil => rfl
    | cons b r =>
      simp only [plusDM, List.length_cons] at *
      omega

/-- `minusDM` has one entry per adjacent candle pair. -/
lemma minusDM_length (c : List Candle) : (minusDM c).length = c.length - 1 := by
  induction c with
  | nil => rfl
  | cons a t ih =>
    cases t with
    | nil => rfl
    | cons b r =>
      simp only [minusDM, List.length_cons] at *
      omega

/-- `rmaAux` preserves length. -/
lemma rmaAux_length (p : ℕ) (xs : List ℚ) :
    ∀ r, (rmaAux p r xs).length = xs.length := by
  induction xs with
  | nil => intro r; rfl
  | cons v rest ih =>
    intro r
    simp only [rmaAux, List.length_cons, ih]

/-- `_rma` fails exactly on short input. -/
lemma rma_eq_none_iff (xs : List ℚ) (p : ℕ) :
    _rma xs p = none ↔ xs.length < p := by
  unfold _rma
  split <;> simp_all

/-- On sufficient input, `_rma` returns the seed followed by the smoothed
tail. -/
lemma rma_some_of (xs : List ℚ) (p : ℕ) (h : ¬ xs.length < p) :
    _rma xs p = some ((xs.take p).sum / p ::
      rmaAux p ((xs.take p).sum / p) (xs.drop p)) := by
  unfold _rma
  rw [if_neg h]

/-- Length of a successful `_rma` result. -/
lemma rma_some_length (xs : List ℚ) (p : ℕ) (h : ¬ xs.length < p) :
    ((xs.take p).sum / (p:ℚ) ::
      rmaAux p ((xs.take p).sum / p) (xs.drop p)).length
      = xs.length - p + 1 := by
  simp only [List.length_cons, rmaAux_length, List.length_drop]

/-! ### Claim C8 -/

/-- Claim C8: for `period ≥ 1`, `compute_atr` is `None` exactly when fewer
than `period + 1` candles exist, and otherwise equals the arithmetic mean of
the last `period` true-range values (`trList` applies
`compute_true_range(close[i-1], high[i], low[i])` to each adjacent pair). -/
theorem C8_compute_atr_mean (candles : List Candle) (period : ℕ)
    (hp : 1 ≤ period) :
    (compute_atr candles period = none ↔ candles.length < period + 1) ∧
    (period + 1 ≤ candles.length →
      compute_atr candles period =
        some (((trList candles).drop (candles.length - 1 - period)).sum /
          (period : ℚ))) := by
  have hlen : (trList candles).length = candles.length - 1 :=
    trList_length candles
  constructor
  · by_cases hg : candles.length < period + 1
    · simp [compute_atr, hg]
    · have hg2 : ¬ (trList candles).length < period := by omega
      simp [compute_atr, hg, hg2]
  · intro hge
    have hg : ¬ candles.length < period + 1 := not_lt.mpr hge
    have hg2 : ¬ (trList candles).length < period := by omega
    simp only [compute_atr, if_neg hg, if_neg hg2, Option.some.injEq]
    unfold pymean
    have hdl : ((trList candles).drop
        ((trList candles).length - period)).length = period := by
      rw [List.length_drop]
      omega
    rw [hdl, hlen]

/-- Witness for C8 at the five-candle staircase with `period = 2`:
the hypotheses hold and both conjuncts apply. -/
theorem C8_witness :
    1 ≤ 2 ∧
    ((compute_atr stair5 2 = none ↔ stair5.length < 2 + 1) ∧
     (2 + 1 ≤ stair5.length →
       compute_atr stair5 2 =
         some (((trList stair5).drop (stair5.length - 1 - 2)).sum /
           ((2:ℕ) : ℚ)))) :=
  ⟨by norm_num, C8_compute_atr_mean stair5 2 (by norm_num)⟩

/-! ### Claim C10 -/

/-- A successful `_rma` result is never the empty list. -/
lemma rma_ne_nil (xs : List ℚ) (p : ℕ) (l : List ℚ)
    (h : _rma xs p = some l) : l ≠ [] := by
  unfold _rma at h
  split at h
  · exact absurd h (by simp)
  · simp only [Option.some.injEq] at h
    subst h
    simp

/-- `adx_series[-1] if adx_series else None` is `None` exactly when the
smoothing failed, provided a successful smoothing is nonempty. -/
lemma bind_getLast_none_iff (o : Option (List ℚ))
    (h : ∀ l, o = some l → l ≠ []) :
    o.bind List.getLast? = none ↔ o = none := by
  cases o with
  | none => simp
  | some l =>
    have hne := h l rfl
    simp only [Option.some_bind]
    constructor
    · intro hgl
      exact absurd (List.getLast?_eq_none_iff.mp hgl) hne
    · intro hc
      exact absurd hc (by simp)

/-- Claim C10: for `period ≥ 2`, `compute_adx` returns `None` exactly when
the window holds fewer than `2·period` candles — windows that pass the
`period + 2` length guard but leave the final Wilder smoothing of the DX
series short still produce `None`, and every window of at least `2·period`
candles produces a value. -/
theorem C10_adx_none_iff (candles : List Candle) (period : ℕ)
    (hp : 2 ≤ period) :
    compute_adx candles period = none ↔ candles.length < 2 * period := by
  by_cases hg : candles.length < period + 2
  · simp only [compute_adx, if_pos hg]
    constructor
    · intro _; omega
    · intro _; trivial
  · push_neg at hg
    have htr := trList_length candles
    have hpl := plusDM_length candles
    have hml := minusDM_length candles
    have htr' : ¬ (trList candles).length < period := by omega
    have hpl' : ¬ (plusDM candles).length < period := by omega
    have hml' : ¬ (minusDM candles).length < period := by omega
    simp only [compute_adx, if_neg (not_lt.mpr hg)]
    rw [rma_some_of _ _ htr', rma_some_of _ _ hpl', rma_some_of _ _ hml']
    simp only [isFalsy, List.isEmpty_cons, Bool.or_self, Bool.or_false,
      Bool.false_eq_true, if_false, Option.getD_some]
    rw [bind_getLast_none_iff _ (fun l h => rma_ne_nil _ _ l h),
      rma_eq_none_iff]
    rw [List.length_zipWith]
    simp only [diPart, List.length_map, List.length_range, min_self,
      List.length_cons, rmaAux_length, List.length_drop,
      trList_length, plusDM_length, minusDM_length]
    omega

/-- Witness for C10 at the five-candle staircase with `period = 2`:
`5 ≥ 2·2`, so the iff instance states the ADX is produced. -/
theorem C10_witness :
    2 ≤ 2 ∧
    (compute_adx stair5 2 = none ↔ stair5.length < 2 * 2) :=
  ⟨by norm_num, C10_adx_none_iff stair5 2 (by norm_num)⟩

/-! ### Claim C6 -/

/-- Claim C6 (amended, short-window part): for every candle window shorter
than `min_history = max(emaSlow, donchianLkb + 1, rangeLookback)` the regime
classifier returns the bare string "UNSURE", and this insufficient-history
check is the first rule evaluated.  (The classifier returns only a regime
string — it has no `atrQuiet` or `microBias` output — and the claimed
ATR-threshold rule does not exist: the `atr_value` parameter is ignored by
the body, see the counterexample.) -/
theorem C6_short_window_unsure (candles : List Candle)
    (atr_value pip_value : ℚ)
    (adx_period ema_fast ema_slow donchian_lkb range_lookback : ℕ)
    (range_max_width_pips : ℚ)
    (h : candles.length < max ema_slow (max (donchian_lkb + 1) range_lookback)) :
    market_state candles atr_value pip_value adx_period ema_fast ema_slow
      donchian_lkb range_lookback range_max_width_pips = "UNSURE" := by
  simp only [market_state, if_pos h]

/-- Witness for C6: the five-candle staircase is shorter than the default
`min_history = max(34, 15, 20) = 34`, so the classifier answers UNSURE. -/
theorem C6_witness :
    stair5.length < max 34 (max (14 + 1) 20) ∧
    market_state stair5 0 (1/100) 10 13 34 14 20 250 = "UNSURE" :=
  ⟨by norm_num [stair5],
   C6_short_window_unsure stair5 0 (1/100) 10 13 34 14 20 250
     (by norm_num [stair5])⟩

/-- Counterexample to C6 as stated: `market_state` ignores its ATR argument,
so a trending staircase window is classified TREND_LONG both with a reported
ATR of 0 (below any positive `atrMinThreshold`) and with an absurdly large
one — no ATR-quiet rule fires and no `atrQuiet` flag exists. -/
theorem C6_counterexample :
    market_state stair5 0 (1/100) 2 1 3 2 2 50 = "TREND_LONG" ∧
    market_state stair5 1000000 (1/100) 2 1 3 2 2 50 = "TREND_LONG" := by
  have key : ∀ av : ℚ,
      market_state stair5 av (1/100) 2 1 3 2 2 50 = "TREND_LONG" := by
    intro av
    have hadx : compute_adx stair5 2 = some 100 := by
      have h1 : trList stair5 = [1,1,1,1] := by
        norm_num [trList, compute_true_range, stair5]
      have h2 : plusDM stair5 = [1,1,1,1] := by norm_num [plusDM, stair5]
      have h3 : minusDM stair5 = [0,0,0,0] := by norm_num [minusDM, stair5]
      have h4 : _rma [1,1,1,1] 2 = some [1,1,1] := by norm_num [_rma, rmaAux]
      have h5 : _rma [0,0,0,0] 2 = some [0,0,0] := by norm_num [_rma, rmaAux]
      simp only [compute_adx, h1, h2, h3, h4, h5]
      rw [if_neg (by norm_num [stair5])]
      norm_num [isFalsy, diPart, dxPart, List.range_succ, _rma, rmaAux]
    have hrange : (detect_range stair5 2 50 (1/100)).1 = false := by
      norm_num [detect_range, stair5, listMax, listMin, price_to_pips]
    have hdon : (donchian_breakout stair5 2).1 = some "LONG" := by
      norm_num [donchian_breakout, stair5, listMax, listMin]
    have hcl : stair5.map (·.close) = [0,1,2,3,4] := by norm_num [stair5]
    have hef : _ema_series [0,1,2,3,4] 1 = [0,1,2,3,4] := by
      norm_num [_ema_series, emaAux]
    have hes : _ema_series [0,1,2,3,4] 3 = [0, 1/2, 5/4, 17/8, 49/16] := by
      norm_num [_ema_series, emaAux]
    simp only [market_state, hcl, hef, hes, hadx, hdon, hrange]
    rw [if_neg (by norm_num [stair5])]
    norm_num
  exact ⟨key 0, key 1000000⟩
